import Mathlib

/-!
Shallow embedding of the synthetic-data Generator Service described by the
repository specification. The repository itself is notebook glue around a
third-party SDK (train / probe / generate / reports), so every definition
below is modelled from the specification of the hypothetical core, staying
faithful to its data model (Table, Generator, PrivacyBudget, SeedSpec,
SyntheticBatch), its component contracts (Schema Profiler, Training
Controller, Sampler, Report Builder) and its error-handling design.
Wall-clock time is modelled as a discrete count of training steps.
-/

set_option autoImplicit false

namespace SynthGen

/-- Cell values of tables, seeds and synthetic rows, modelled as strings. -/
abbrev Val := String

/-- Modelled from the spec: the four recognized per-column encoding types
(categorical, numeric, datetime, free text). -/
inductive EncodingType where
  | categorical
  | numeric
  | datetime
  | text
deriving DecidableEq

/-- Modelled from the spec and the notebook configuration: the Schema
Profiler maps a declared model encoding tag (the notebook strings such as
TABULAR_CATEGORICAL or LANGUAGE_TEXT) to exactly one encoding type, and
recognizes nothing else. -/
def classify (tag : String) : Option EncodingType :=
  if tag = "TABULAR_CATEGORICAL" then some .categorical
  else if tag = "TABULAR_NUMERIC" then some .numeric
  else if tag = "TABULAR_DATETIME" then some .datetime
  else if tag = "LANGUAGE_TEXT" then some .text
  else none

/-- Modelled from the spec: a named column with a declared encoding tag and
its sequence of row values. -/
structure Column where
  name : String
  rawType : String
  values : List Val
deriving DecidableEq

/-- Modelled from the spec: a Table is an ordered sequence of named columns. -/
structure Table where
  name : String
  columns : List Column
deriving DecidableEq

/-- Number of rows of a table (length of its first column, 0 if no columns). -/
def Table.numRows (t : Table) : Nat :=
  match t.columns with
  | [] => 0
  | c :: _ => c.values.length

/-- Per-column result of the Schema Profiler. -/
structure ColumnProfile where
  name : String
  encoding : EncodingType
deriving DecidableEq

/-- Modelled from the spec: the error kinds of the error-handling design
(SchemaError for an unclassifiable column, TrainingError for unusable input,
SeedMismatchError for a seed column missing from the schema). -/
inductive GenError where
  | schemaError (col : String)
  | trainingError
  | seedMismatchError (col : String)
deriving DecidableEq

/-- Modelled from the spec: PrivacyBudgetExceeded is surfaced as a warning,
not a hard failure. -/
inductive Warning where
  | privacyBudgetExceeded
deriving DecidableEq

/-- Modelled from the spec: a PrivacyBudget is a pair of a maximal epsilon
and a delta. -/
structure PrivacyBudget where
  maxEpsilon : Rat
  delta : Rat
deriving DecidableEq

/-- Modelled from the spec: the training configuration enumerates the
maximal training time (none meaning unbounded), an optional privacy budget
and per-column encoding overrides. -/
structure TrainConfig where
  maxTrainingTime : Option Nat
  privacyBudget : Option PrivacyBudget
  perColumnOverrides : List (String × String)
deriving DecidableEq

/-- Look up a key in an association list (first match wins). -/
def assocLookup (n : String) : List (String × Val) → Option Val
  | [] => none
  | (k, v) :: rest => if k = n then some v else assocLookup n rest

/-- Apply the per-column encoding overrides of a configuration to a table,
as the notebook column configuration does. -/
def applyOverrides (cfg : TrainConfig) (t : Table) : Table :=
  { t with
    columns := t.columns.map fun c =>
      match assocLookup c.name cfg.perColumnOverrides with
      | some r => { c with rawType := r }
      | none => c }

/-- The table a training run actually operates on, after overrides. -/
def configuredTable (cfg : TrainConfig) (t : Table) : Table :=
  applyOverrides cfg t

/-- Modelled from the spec: the Schema Profiler classifies every column,
failing with a SchemaError on the first column whose declared type is not
recognized. -/
def profileColumns : List Column → Except GenError (List ColumnProfile)
  | [] => .ok []
  | c :: cs =>
    match classify c.rawType with
    | none => .error (.schemaError c.name)
    | some e =>
      match profileColumns cs with
      | .ok ps => .ok (⟨c.name, e⟩ :: ps)
      | .error err => .error err

/-- The usable columns of a table: those whose declared type is recognized. -/
def usableColumns (t : Table) : List Column :=
  t.columns.filter fun c => (classify c.rawType).isSome

/-- Modelled from the spec: the internals of the external model-fitting
process, absent from the repository. Each fitting step consumes one time
unit and a fixed epsilon amount; the model converges at a fixed step, and
owns a conditional draw function for unseeded columns given the seeded
column values of a row. -/
structure FitModel where
  epsPerStep : Rat
  convergesAt : Nat
  condDraw : List (String × Val) → String → Nat → Val

/-- The reason a training run stopped. -/
inductive StopReason where
  | converged
  | timeLimit
  | epsilonReached
deriving DecidableEq

/-- Modelled from the spec: training stops at whichever comes first of
convergence, the maximal training time elapsing, or the privacy budget
epsilon threshold being reached. -/
def stopCheck (fm : FitModel) (cfg : TrainConfig) (elapsed : Nat) (eps : Rat) :
    Option StopReason :=
  if fm.convergesAt ≤ elapsed then some .converged
  else
    match cfg.maxTrainingTime with
    | some tmax =>
      if tmax ≤ elapsed then some .timeLimit
      else
        match cfg.privacyBudget with
        | some pb => if pb.maxEpsilon ≤ eps then some .epsilonReached else none
        | none => none
    | none =>
      match cfg.privacyBudget with
      | some pb => if pb.maxEpsilon ≤ eps then some .epsilonReached else none
      | none => none

/-- Modelled from the spec: the iterative model-fitting loop. Each
iteration first checks the stopping criteria, then spends one time unit and
one epsilon increment. The fuel argument makes the recursion structural;
training supplies enough fuel to cover the convergence criterion. -/
def trainLoop (fm : FitModel) (cfg : TrainConfig) :
    Nat → Nat → Rat → Option (Nat × Rat × StopReason)
  | 0, _, _ => none
  | fuel + 1, elapsed, eps =>
    match stopCheck fm cfg elapsed eps with
    | some r => some (elapsed, eps, r)
    | none => trainLoop fm cfg fuel (elapsed + 1) (eps + fm.epsPerStep)

/-- Modelled from the spec: the immutable Generator artifact produced by
training, owning the learned model, the schema, and the configuration used
to produce it, tied to exactly one source table. -/
structure Generator where
  id : Nat
  name : String
  sourceTable : String
  schema : List ColumnProfile
  config : TrainConfig
  trainedSteps : Nat
  epsilonSpent : Rat
  fit : FitModel

/-- The column names of a generator schema. -/
def schemaNames (g : Generator) : List String :=
  g.schema.map fun cp => cp.name

/-- Modelled from the spec: the state of the Generator Service, holding the
generators produced so far and a fresh-id counter. -/
structure ServiceState where
  generators : List Generator
  nextId : Nat

/-- The Generator artifact assembled at the end of a successful training
run: a fresh id, the source table name, the profiled schema, the
configuration used, and the training outcome. -/
def trainedGenerator (fm : FitModel) (st : ServiceState) (tc : Table)
    (cfg : TrainConfig) (schema : List ColumnProfile) (steps : Nat)
    (eps : Rat) : Generator :=
  { id := st.nextId, name := tc.name, sourceTable := tc.name,
    schema := schema, config := cfg, trainedSteps := steps,
    epsilonSpent := eps, fit := fm }

/-- The warnings surfaced with a successful training run: stopping on the
epsilon threshold surfaces PrivacyBudgetExceeded. -/
def trainWarnings (reason : StopReason) : List Warning :=
  if reason = StopReason.epsilonReached then [Warning.privacyBudgetExceeded] else []

/-- Modelled from the spec: the Training Controller. It fails with a
TrainingError when the table is empty or has zero usable columns, profiles
the schema (propagating SchemaError), runs the fitting loop until the first
stopping criterion, and registers a fresh immutable Generator; stopping on
the epsilon threshold surfaces the PrivacyBudgetExceeded warning while
still returning the best-effort generator. -/
def train (fm : FitModel) (st : ServiceState) (t : Table) (cfg : TrainConfig) :
    Except GenError (Generator × List Warning) × ServiceState :=
  let tc := configuredTable cfg t
  if tc.numRows = 0 ∨ (usableColumns tc).length = 0 then
    (.error .trainingError, st)
  else
    match profileColumns tc.columns with
    | .error e => (.error e, st)
    | .ok schema =>
      match trainLoop fm cfg (fm.convergesAt + 1) 0 0 with
      | none => (.error .trainingError, st)
      | some (steps, eps, reason) =>
        (.ok (trainedGenerator fm st tc cfg schema steps eps, trainWarnings reason),
          { generators := st.generators ++ [trainedGenerator fm st tc cfg schema steps eps],
            nextId := st.nextId + 1 })

/-- Modelled from the spec: a SeedSpec is a partial table, given
column-wise as the notebooks do (a data-frame dictionary of column name to
values). -/
structure SeedSpec where
  cols : List (String × List Val)
deriving DecidableEq

/-- The column names of a seed. -/
def SeedSpec.names (s : SeedSpec) : List String :=
  s.cols.map Prod.fst

/-- The number of seed rows (length of the first seed column). -/
def SeedSpec.numRows (s : SeedSpec) : Nat :=
  match s.cols with
  | [] => 0
  | c :: _ => c.2.length

/-- Well-formedness of a seed as a data frame: distinct column names and
rectangular columns. -/
def SeedSpec.WF (s : SeedSpec) : Prop :=
  s.names.Nodup ∧ ∀ p ∈ s.cols, p.2.length = s.numRows

/-- The assignment of seeded column values for row index i. -/
def seedRowAssign (s : SeedSpec) (i : Nat) : List (String × Val) :=
  s.cols.map fun p => (p.1, p.2.getD i "")

/-- Modelled from the spec: an ordered sequence of generated rows; each row
is an association of column name to value in schema order. -/
structure SyntheticBatch where
  rows : List (List (String × Val))
deriving DecidableEq

/-- The value of one cell of a generated row: a seeded column takes the
seed value exactly; an unseeded column is drawn from the conditional
distribution given the seeded columns, modelled by the learned draw
function. -/
def cellValue (g : Generator) (assign : List (String × Val)) (i : Nat)
    (colName : String) : Val :=
  match assocLookup colName assign with
  | some v => v
  | none => g.fit.condDraw assign colName i

/-- One generated row: every schema column receives a value. -/
def genRow (g : Generator) (assign : List (String × Val)) (i : Nat) :
    List (String × Val) :=
  g.schema.map fun cp => (cp.name, cellValue g assign i cp.name)

/-- Modelled from the spec: the Sampler. Without a seed it produces the
requested count of rows; with a seed it produces one row per seed row,
failing with a SeedMismatchError when a seed column does not exist in the
generator schema. -/
def sample (g : Generator) (count : Nat) (seed : Option SeedSpec) :
    Except GenError SyntheticBatch :=
  match seed with
  | none => .ok ⟨(List.range count).map fun i => genRow g [] i⟩
  | some s =>
    match s.names.find? (fun n => !(schemaNames g).contains n) with
    | some bad => .error (.seedMismatchError bad)
    | none => .ok ⟨(List.range s.numRows).map fun i => genRow g (seedRowAssign s i) i⟩

/-- Modelled from the notebook generate call: an explicit size is only
needed without a seed; a seeded generation produces one row per seed row. -/
def generate (g : Generator) (size : Option Nat) (seed : Option SeedSpec) :
    Except GenError SyntheticBatch :=
  match seed with
  | some s => sample g s.numRows (some s)
  | none => sample g (size.getD 0) none

/-- Modelled from the notebook probe call: a small sample, defaulting to a
single row when neither size nor seed is given. -/
def probe (g : Generator) (size : Option Nat) (seed : Option SeedSpec) :
    Except GenError SyntheticBatch :=
  match seed with
  | some s => sample g s.numRows (some s)
  | none => sample g (size.getD 1) none

/-- Service-level sampling: a read-only request against the state. -/
def sampleOp (st : ServiceState) (g : Generator) (count : Nat)
    (seed : Option SeedSpec) : Except GenError SyntheticBatch × ServiceState :=
  (sample g count seed, st)

/-- Service-level profiling: a read-only request against the state. -/
def profileOp (st : ServiceState) (t : Table) :
    Except GenError (List ColumnProfile) × ServiceState :=
  (profileColumns t.columns, st)

/-- The relative frequency of a value in a list of values. -/
def valueFreq (v : Val) (vs : List Val) : Rat :=
  (vs.count v : Rat) / (vs.length : Rat)

/-- Column-level distributional distance between original and synthetic
values: total variation style sum of absolute frequency differences. -/
def colDistance (orig synth : List Val) : Rat :=
  ((orig ++ synth).dedup.map fun v => |valueFreq v orig - valueFreq v synth|).sum

/-- The values of a named column of a table. -/
def columnValuesOf (t : Table) (colName : String) : List Val :=
  match t.columns.find? (fun c => c.name = colName) with
  | some c => c.values
  | none => []

/-- The values of a named column of a synthetic batch. -/
def batchColumn (b : SyntheticBatch) (colName : String) : List Val :=
  b.rows.filterMap (assocLookup colName)

/-- Row i of a table as an association of column name to value. -/
def tableRowAssign (t : Table) (i : Nat) : List (String × Val) :=
  t.columns.map fun c => (c.name, c.values.getD i "")

/-- All rows of a table. -/
def tableRows (t : Table) : List (List (String × Val)) :=
  (List.range t.numRows).map (tableRowAssign t)

/-- Modelled from the spec: the Report Builder output, column-level
fidelity metrics plus a privacy-risk summary (the count of synthetic rows
identical to an original row). -/
structure ReportMetrics where
  columnDistances : List (String × Rat)
  matchedRows : Nat
deriving DecidableEq

/-- Modelled from the spec: the Report Builder, a pure function of the
generator schema, the original table and the synthetic batch. -/
def report (g : Generator) (orig : Table) (synth : SyntheticBatch) :
    ReportMetrics :=
  { columnDistances :=
      g.schema.map fun cp =>
        (cp.name, colDistance (columnValuesOf orig cp.name) (batchColumn synth cp.name)),
    matchedRows :=
      (synth.rows.filter fun r => decide (r ∈ tableRows orig)).length }

/-- Service-level reporting: a read-only request against the state. -/
def reportOp (st : ServiceState) (g : Generator) (orig : Table)
    (synth : SyntheticBatch) : ReportMetrics × ServiceState :=
  (report g orig synth, st)

/-! Helper lemmas about association lookup, indexing, the profiler and the
training loop. -/

lemma assocLookup_eq_none (n : String) :
    ∀ l : List (String × Val), n ∉ l.map Prod.fst → assocLookup n l = none := by
  intro l
  induction l with
  | nil => intro _; rfl
  | cons p rest ih =>
    intro h
    simp only [List.map_cons, List.mem_cons] at h
    push_neg at h
    obtain ⟨h1, h2⟩ := h
    simp only [assocLookup]
    rw [if_neg (fun hk => h1 hk.symm)]
    exact ih h2

lemma assocLookup_map_name (f : String → Val) (n : String) :
    ∀ l : List ColumnProfile, n ∈ l.map (fun cp => cp.name) →
      assocLookup n (l.map fun cp => (cp.name, f cp.name)) = some (f n) := by
  intro l
  induction l with
  | nil => intro h; simp at h
  | cons cp rest ih =>
    intro h
    simp only [List.map_cons, List.mem_cons] at h
    simp only [List.map_cons, assocLookup]
    by_cases hk : cp.name = n
    · rw [if_pos hk, hk]
    · rw [if_neg hk]
      exact ih (h.resolve_left fun he => hk he.symm)

lemma assocLookup_pairs (i : Nat) (c : String) (vs : List Val) :
    ∀ l : List (String × List Val), (l.map Prod.fst).Nodup → (c, vs) ∈ l →
      assocLookup c (l.map fun p => (p.1, p.2.getD i "")) = some (vs.getD i "") := by
  intro l
  induction l with
  | nil => intro _ hmem; simp at hmem
  | cons p rest ih =>
    intro hnd hmem
    simp only [List.map_cons, List.nodup_cons] at hnd
    simp only [List.mem_cons] at hmem
    simp only [List.map_cons, assocLookup]
    rcases hmem with heq | hmem
    · rw [if_pos (by rw [← heq])]
      rw [← heq]
    · have hne : p.1 ≠ c := by
        intro hk
        exact hnd.1 (hk ▸ (List.mem_map.mpr ⟨(c, vs), hmem, rfl⟩))
      rw [if_neg hne]
      exact ih hnd.2 hmem

lemma assocLookup_seedRow (s : SeedSpec) (i : Nat) (c : String) (vs : List Val)
    (hnd : s.names.Nodup) (hmem : (c, vs) ∈ s.cols) :
    assocLookup c (seedRowAssign s i) = some (vs.getD i "") :=
  assocLookup_pairs i c vs s.cols hnd hmem

lemma getD_range_map {α : Type} (f : Nat → α) (n i : Nat) (d : α) (h : i < n) :
    ((List.range n).map f).getD i d = f i := by
  rw [List.getD_eq_getElem?_getD, List.getElem?_map, List.getElem?_range h]
  rfl

lemma stopCheck_of_converged (fm : FitModel) (cfg : TrainConfig) (elapsed : Nat)
    (eps : Rat) (h : fm.convergesAt ≤ elapsed) :
    stopCheck fm cfg elapsed eps = some .converged := by
  simp [stopCheck, h]

lemma stopCheck_none_not_converged (fm : FitModel) (cfg : TrainConfig)
    (elapsed : Nat) (eps : Rat) (h : stopCheck fm cfg elapsed eps = none) :
    elapsed < fm.convergesAt := by
  by_contra hcon
  push_neg at hcon
  rw [stopCheck_of_converged fm cfg elapsed eps hcon] at h
  exact Option.noConfusion h

lemma trainLoop_isSome (fm : FitModel) (cfg : TrainConfig) :
    ∀ (fuel elapsed : Nat) (eps : Rat), fm.convergesAt < elapsed + fuel →
      elapsed ≤ fm.convergesAt → (trainLoop fm cfg fuel elapsed eps).isSome := by
  intro fuel
  induction fuel with
  | zero => intro elapsed eps h1 h2; omega
  | succ n ih =>
    intro elapsed eps h1 h2
    cases hsc : stopCheck fm cfg elapsed eps with
    | some r => simp [trainLoop, hsc]
    | none =>
      have hlt := stopCheck_none_not_converged fm cfg elapsed eps hsc
      simp only [trainLoop, hsc]
      exact ih (elapsed + 1) (eps + fm.epsPerStep) (by omega) (by omega)

lemma trainLoop_spec (fm : FitModel) (cfg : TrainConfig) :
    ∀ (fuel elapsed n : Nat) (e : Rat) (r : StopReason),
      trainLoop fm cfg fuel elapsed ((elapsed : Rat) * fm.epsPerStep) =
        some (n, e, r) →
      elapsed ≤ n ∧ e = (n : Rat) * fm.epsPerStep ∧
        stopCheck fm cfg n ((n : Rat) * fm.epsPerStep) = some r ∧
        ∀ m, elapsed ≤ m → m < n →
          stopCheck fm cfg m ((m : Rat) * fm.epsPerStep) = none := by
  intro fuel
  induction fuel with
  | zero => intro elapsed n e r h; simp [trainLoop] at h
  | succ fuel ih =>
    intro elapsed n e r h
    cases hsc : stopCheck fm cfg elapsed ((elapsed : Rat) * fm.epsPerStep) with
    | some r0 =>
      simp only [trainLoop, hsc, Option.some.injEq, Prod.mk.injEq] at h
      obtain ⟨h1, h2, h3⟩ := h
      subst h1
      subst h3
      refine ⟨le_refl _, h2.symm, ?_, ?_⟩
      · rw [hsc]
      · intro m hm1 hm2; omega
    | none =>
      simp only [trainLoop, hsc] at h
      have hcast : (elapsed : Rat) * fm.epsPerStep + fm.epsPerStep =
          ((elapsed + 1 : Nat) : Rat) * fm.epsPerStep := by
        push_cast
        ring
      rw [hcast] at h
      obtain ⟨h1, h2, h3, h4⟩ := ih (elapsed + 1) n e r h
      refine ⟨by omega, h2, h3, ?_⟩
      intro m hm1 hm2
      rcases Nat.eq_or_lt_of_le hm1 with heq | hlt
      · rw [← heq]; exact hsc
      · exact h4 m (by omega) hm2

lemma profileColumns_ok_forall2 :
    ∀ (cols : List Column) (ps : List ColumnProfile),
      profileColumns cols = .ok ps →
      List.Forall₂
        (fun c p => p.name = c.name ∧ classify c.rawType = some p.encoding)
        cols ps := by
  intro cols
  induction cols with
  | nil =>
    intro ps h
    simp only [profileColumns, Except.ok.injEq] at h
    rw [← h]
    exact List.Forall₂.nil
  | cons c cs ih =>
    intro ps h
    simp only [profileColumns] at h
    cases hc : classify c.rawType with
    | none => rw [hc] at h; simp at h
    | some e =>
      rw [hc] at h
      cases hrec : profileColumns cs with
      | error err => rw [hrec] at h; simp at h
      | ok ps0 =>
        rw [hrec] at h
        simp only [Except.ok.injEq] at h
        rw [← h]
        exact List.Forall₂.cons ⟨rfl, hc⟩ (ih ps0 hrec)

lemma profileColumns_error_mem :
    ∀ (cols : List Column) (e : GenError), profileColumns cols = .error e →
      ∃ c ∈ cols, e = .schemaError c.name ∧ classify c.rawType = none := by
  intro cols
  induction cols with
  | nil => intro e h; simp [profileColumns] at h
  | cons c cs ih =>
    intro e h
    simp only [profileColumns] at h
    cases hc : classify c.rawType with
    | none =>
      rw [hc] at h
      simp only [Except.error.injEq] at h
      exact ⟨c, List.mem_cons_self c cs, h.symm, hc⟩
    | some enc =>
      rw [hc] at h
      cases hrec : profileColumns cs with
      | error err =>
        rw [hrec] at h
        simp only [Except.error.injEq] at h
        obtain ⟨c0, hc0, he, hcl⟩ := ih err hrec
        exact ⟨c0, List.mem_cons_of_mem c hc0, h ▸ he, hcl⟩
      | ok ps0 => rw [hrec] at h; simp at h

lemma seedRowAssign_fst (s : SeedSpec) (i : Nat) :
    (seedRowAssign s i).map Prod.fst = s.names := by
  simp [seedRowAssign, SeedSpec.names, List.map_map, Function.comp]

lemma mem_schemaNames_of_mem (g : Generator) (cp : ColumnProfile)
    (h : cp ∈ g.schema) : cp.name ∈ schemaNames g :=
  List.mem_map.mpr ⟨cp, h, rfl⟩

lemma sample_seed_ok (g : Generator) (s : SeedSpec) (count : Nat)
    (hsub : ∀ n ∈ s.names, n ∈ schemaNames g) :
    sample g count (some s) =
      .ok ⟨(List.range s.numRows).map fun i => genRow g (seedRowAssign s i) i⟩ := by
  have hfind : s.names.find? (fun n => !(schemaNames g).contains n) = none := by
    rw [List.find?_eq_none]
    intro x hx
    simp [hsub x hx]
  simp only [sample]
  rw [hfind]

lemma stopCheck_at_tmax (fm : FitModel) (cfg : TrainConfig) (tmax : Nat)
    (eps : Rat) (h : cfg.maxTrainingTime = some tmax) :
    stopCheck fm cfg tmax eps ≠ none := by
  unfold stopCheck
  rw [h]
  by_cases hc : fm.convergesAt ≤ tmax
  · simp [hc]
  · simp [hc]

lemma profileColumns_ok_all_recognized :
    ∀ (cols : List Column) (ps : List ColumnProfile),
      profileColumns cols = .ok ps → ∀ c ∈ cols, (classify c.rawType).isSome := by
  intro cols
  induction cols with
  | nil => intro ps _ c hc; simp at hc
  | cons c0 cs ih =>
    intro ps h c hc
    simp only [profileColumns] at h
    cases hcl : classify c0.rawType with
    | none => rw [hcl] at h; simp at h
    | some e =>
      rw [hcl] at h
      cases hrec : profileColumns cs with
      | error err => rw [hrec] at h; simp at h
      | ok ps0 =>
        rcases List.mem_cons.mp hc with heq | hmem
        · rw [heq, hcl]; rfl
        · exact ih ps0 hrec c hmem

lemma profileColumns_ok_of_all_recognized :
    ∀ cols : List Column, (∀ c ∈ cols, (classify c.rawType).isSome) →
      ∃ ps, profileColumns cols = .ok ps := by
  intro cols
  induction cols with
  | nil => intro _; exact ⟨[], rfl⟩
  | cons c cs ih =>
    intro h
    have hc := h c (List.mem_cons_self c cs)
    cases hcl : classify c.rawType with
    | none => rw [hcl] at hc; simp at hc
    | some e =>
      obtain ⟨ps0, hps0⟩ := ih fun c0 hc0 => h c0 (List.mem_cons_of_mem c hc0)
      exact ⟨⟨c.name, e⟩ :: ps0, by simp only [profileColumns, hcl, hps0]⟩

/-! Concrete fixtures used by witnesses and counterexamples. -/

/-- A concrete learned model used by the witness generators. -/
def fmX : FitModel :=
  { epsPerStep := 0, convergesAt := 0, condDraw := fun _ c i => c ++ toString i }

/-- A concrete empty service state. -/
def stX : ServiceState := { generators := [], nextId := 0 }

/-- A concrete training configuration with a three-unit time budget. -/
def cfgX : TrainConfig :=
  { maxTrainingTime := some 3, privacyBudget := none, perColumnOverrides := [] }

/-- A concrete trained generator over the traffic schema of the notebook. -/
def gTraffic : Generator :=
  { id := 0, name := "train", sourceTable := "train",
    schema := [⟨"Date", .datetime⟩, ⟨"Roadway Name", .categorical⟩,
      ⟨"Volume", .numeric⟩],
    config := cfgX, trainedSteps := 0, epsilonSpent := 0, fit := fmX }

/-- The marathon seed of the traffic notebook. -/
def seedMarathon : SeedSpec :=
  ⟨[("Date", ["11/06/2016"]), ("Roadway Name", ["JEROME AVENUE"])]⟩

/-- A concrete trained generator over the headlines schema of the notebook. -/
def gHeadlines : Generator :=
  { id := 1, name := "headlines", sourceTable := "headlines",
    schema := [⟨"category", .categorical⟩, ⟨"date", .datetime⟩,
      ⟨"headline", .text⟩],
    config := cfgX, trainedSteps := 0, epsilonSpent := 0, fit := fmX }

/-- The 100-row wellness seed of the headlines notebook. -/
def seedWellness : SeedSpec :=
  ⟨[("category", List.replicate 100 "WELLNESS")]⟩

/-- A concrete one-column numeric table with two rows. -/
def tGood : Table := ⟨"train", [⟨"Volume", "TABULAR_NUMERIC", ["1", "2"]⟩]⟩

/-- A concrete table with one recognized and one unrecognized column. -/
def tMixed : Table :=
  ⟨"train", [⟨"Volume", "TABULAR_NUMERIC", ["1"]⟩, ⟨"odd", "MYSTERY", ["x"]⟩]⟩

/-- A learned model whose epsilon spend overtakes the budget before either
convergence or the time budget. -/
def fmEps : FitModel :=
  { epsPerStep := 4, convergesAt := 100, condDraw := fun _ c i => c ++ toString i }

/-- A configuration with a privacy budget that is exhausted first. -/
def cfgEps : TrainConfig :=
  { maxTrainingTime := some 50, privacyBudget := some ⟨7, 1 / 100000⟩,
    perColumnOverrides := [] }

/-- A generator sharing the traffic schema but differing in every other
field. -/
def gTraffic2 : Generator :=
  { gTraffic with
    id := 7, name := "other", sourceTable := "other",
    trainedSteps := 9, epsilonSpent := 5, fit := fmEps }

/-- A concrete original table for reporting. -/
def origX : Table := ⟨"train", [⟨"Date", "TABULAR_DATETIME", ["11/06/2016"]⟩]⟩

/-- A concrete synthetic batch for reporting. -/
def bX : SyntheticBatch := ⟨[[("Date", "11/06/2016")]]⟩

/-! Claim theorems. -/

/-- C1: For every trained Generator and every well-formed seed whose
columns all exist in the generator schema, sampling with the seed
succeeds, and every row of the resulting SyntheticBatch carries the seed
values exactly on the seeded columns, while every unseeded schema column
carries the value drawn from the generator conditional distribution given
the seeded columns of that row. -/
theorem sample_matches_seed (g : Generator) (s : SeedSpec) (count : Nat)
    (hwf : s.WF) (hsub : ∀ n ∈ s.names, n ∈ schemaNames g) :
    ∃ b, sample g count (some s) = .ok b ∧ b.rows.length = s.numRows ∧
      (∀ i, i < s.numRows → ∀ c vs, (c, vs) ∈ s.cols →
        assocLookup c (b.rows.getD i []) = some (vs.getD i "")) ∧
      (∀ i, i < s.numRows → ∀ cp ∈ g.schema, cp.name ∉ s.names →
        assocLookup cp.name (b.rows.getD i []) =
          some (g.fit.condDraw (seedRowAssign s i) cp.name i)) := by
  refine ⟨_, sample_seed_ok g s count hsub, ?_, ?_, ?_⟩
  · simp
  · intro i hi c vs hmem
    show assocLookup c
      (((List.range s.numRows).map fun j => genRow g (seedRowAssign s j) j).getD i [])
        = some (vs.getD i "")
    rw [getD_range_map _ _ _ _ hi]
    have hcs : c ∈ schemaNames g :=
      hsub c (List.mem_map.mpr ⟨(c, vs), hmem, rfl⟩)
    unfold genRow
    rw [assocLookup_map_name _ c g.schema hcs]
    unfold cellValue
    rw [assocLookup_seedRow s i c vs hwf.1 hmem]
  · intro i hi cp hcp hnot
    show assocLookup cp.name
      (((List.range s.numRows).map fun j => genRow g (seedRowAssign s j) j).getD i [])
        = some (g.fit.condDraw (seedRowAssign s i) cp.name i)
    rw [getD_range_map _ _ _ _ hi]
    unfold genRow
    rw [assocLookup_map_name _ cp.name g.schema (mem_schemaNames_of_mem g cp hcp)]
    unfold cellValue
    rw [assocLookup_eq_none cp.name _ (by rw [seedRowAssign_fst]; exact hnot)]

/-- C1 witness: the marathon seed of the traffic notebook against the
traffic generator. -/
theorem sample_matches_seed_witness :
    seedMarathon.WF ∧ (∀ n ∈ seedMarathon.names, n ∈ schemaNames gTraffic) ∧
    ∃ b, sample gTraffic 5 (some seedMarathon) = .ok b ∧
      b.rows.length = seedMarathon.numRows ∧
      (∀ i, i < seedMarathon.numRows → ∀ c vs, (c, vs) ∈ seedMarathon.cols →
        assocLookup c (b.rows.getD i []) = some (vs.getD i "")) ∧
      (∀ i, i < seedMarathon.numRows → ∀ cp ∈ gTraffic.schema,
        cp.name ∉ seedMarathon.names →
        assocLookup cp.name (b.rows.getD i []) =
          some (gTraffic.fit.condDraw (seedRowAssign seedMarathon i) cp.name i)) :=
  ⟨by constructor <;> decide, by decide,
    sample_matches_seed gTraffic seedMarathon 5 (by constructor <;> decide)
      (by decide)⟩

/-- C7: sampling zero rows from any generator yields the empty batch, never
an error, and leaves the service state untouched. -/
theorem sample_zero_empty (g : Generator) (st : ServiceState) :
    sample g 0 none = .ok ⟨[]⟩ ∧ (sampleOp st g 0 none).1 = .ok ⟨[]⟩ ∧
      (sampleOp st g 0 none).2 = st := by
  refine ⟨?_, ?_, rfl⟩ <;> simp [sample, sampleOp]

/-- C2: training either fails leaving the service state untouched, or
registers exactly one fresh Generator (carrying the fresh id, appended
after the untouched existing generators), so re-training creates a new
artifact instead of updating an old one; sampling, reporting and profiling
never change the service state, so a trained Generator is immutable. -/
theorem generator_immutable (fm : FitModel) (st : ServiceState) (t : Table)
    (cfg : TrainConfig) (g0 : Generator) (count : Nat) (seed : Option SeedSpec)
    (orig : Table) (b : SyntheticBatch) :
    ((∃ e, (train fm st t cfg).1 = .error e ∧ (train fm st t cfg).2 = st) ∨
      (∃ g w, (train fm st t cfg).1 = .ok (g, w) ∧
        (train fm st t cfg).2.generators = st.generators ++ [g] ∧
        (train fm st t cfg).2.nextId = st.nextId + 1 ∧ g.id = st.nextId)) ∧
    (sampleOp st g0 count seed).2 = st ∧
    (reportOp st g0 orig b).2 = st ∧
    (profileOp st t).2 = st := by
  refine ⟨?_, rfl, rfl, rfl⟩
  by_cases hcond : (configuredTable cfg t).numRows = 0 ∨
      (usableColumns (configuredTable cfg t)).length = 0
  · have hres : train fm st t cfg = (.error .trainingError, st) := by
      simp only [train]
      rw [if_pos hcond]
    exact Or.inl ⟨.trainingError, by rw [hres], by rw [hres]⟩
  · cases hp : profileColumns (configuredTable cfg t).columns with
    | error e =>
      have hres : train fm st t cfg = (.error e, st) := by
        simp only [train]
        rw [if_neg hcond, hp]
      exact Or.inl ⟨e, by rw [hres], by rw [hres]⟩
    | ok schema =>
      cases hl : trainLoop fm cfg (fm.convergesAt + 1) 0 0 with
      | none =>
        have hres : train fm st t cfg = (.error .trainingError, st) := by
          simp only [train]
          rw [if_neg hcond, hp, hl]
        exact Or.inl ⟨.trainingError, by rw [hres], by rw [hres]⟩
      | some res =>
        obtain ⟨steps, eps, reason⟩ := res
        have hres : train fm st t cfg =
            (Except.ok
                (trainedGenerator fm st (configuredTable cfg t) cfg schema steps eps,
                  trainWarnings reason),
              ⟨st.generators ++
                  [trainedGenerator fm st (configuredTable cfg t) cfg schema steps eps],
                st.nextId + 1⟩) := by
          simp only [train]
          rw [if_neg hcond, hp, hl]
        exact Or.inr ⟨_, _, by rw [hres], by rw [hres], by rw [hres], rfl⟩

/-- C5: training fails with a TrainingError exactly when the configured
table is empty or has zero usable columns, and in that case the request is
aborted: the error is surfaced and no generator is added to the state. -/
theorem train_trainingError_iff (fm : FitModel) (st : ServiceState) (t : Table)
    (cfg : TrainConfig) :
    ((train fm st t cfg).1 = .error .trainingError ↔
      (configuredTable cfg t).numRows = 0 ∨
        (usableColumns (configuredTable cfg t)).length = 0) ∧
    ((configuredTable cfg t).numRows = 0 ∨
        (usableColumns (configuredTable cfg t)).length = 0 →
      (train fm st t cfg).1 = .error .trainingError ∧
        (train fm st t cfg).2 = st) := by
  constructor
  case right =>
    intro h
    have hres : train fm st t cfg = (.error .trainingError, st) := by
      simp only [train]
      rw [if_pos h]
    exact ⟨by rw [hres], by rw [hres]⟩
  by_cases hcond : (configuredTable cfg t).numRows = 0 ∨
      (usableColumns (configuredTable cfg t)).length = 0
  · have hres : train fm st t cfg = (.error .trainingError, st) := by
      simp only [train]
      rw [if_pos hcond]
    rw [hres]
    simp only [hcond, iff_true]
  · simp only [hcond, iff_false]
    cases hp : profileColumns (configuredTable cfg t).columns with
    | error e =>
      obtain ⟨c, _, he, _⟩ := profileColumns_error_mem _ e hp
      have hres : train fm st t cfg = (.error e, st) := by
        simp only [train]
        rw [if_neg hcond, hp]
      rw [hres, he]
      simp
    | ok schema =>
      cases hl : trainLoop fm cfg (fm.convergesAt + 1) 0 0 with
      | none =>
        have hs := trainLoop_isSome fm cfg (fm.convergesAt + 1) 0 0
          (by omega) (by omega)
        rw [hl] at hs
        simp at hs
      | some res =>
        obtain ⟨steps, eps, reason⟩ := res
        have hres : train fm st t cfg =
            (Except.ok
                (trainedGenerator fm st (configuredTable cfg t) cfg schema steps eps,
                  trainWarnings reason),
              ⟨st.generators ++
                  [trainedGenerator fm st (configuredTable cfg t) cfg schema steps eps],
                st.nextId + 1⟩) := by
          simp only [train]
          rw [if_neg hcond, hp, hl]
        rw [hres]
        simp

/-- C5 witness: an empty table is rejected with a TrainingError and the
state is untouched. -/
theorem train_trainingError_iff_witness :
    ((configuredTable cfgX ⟨"empty", []⟩).numRows = 0 ∨
      (usableColumns (configuredTable cfgX ⟨"empty", []⟩)).length = 0) ∧
    (train fmX stX ⟨"empty", []⟩ cfgX).1 = .error .trainingError ∧
      (train fmX stX ⟨"empty", []⟩ cfgX).2 = stX :=
  ⟨Or.inl rfl,
    (train_trainingError_iff fmX stX ⟨"empty", []⟩ cfgX).2 (Or.inl rfl)⟩

/-- C6: sampling with a seed naming a column absent from the generator
schema fails with a SeedMismatchError naming such a column, and the failure
is scoped to the request: the service state is untouched and subsequent
sampling against the same generator behaves as if the failing request had
never happened. -/
theorem sample_seed_mismatch (g : Generator) (s : SeedSpec) (count : Nat)
    (st : ServiceState) (hbad : ∃ c ∈ s.names, c ∉ schemaNames g) :
    (∃ c ∈ s.names, c ∉ schemaNames g ∧
      sample g count (some s) = .error (.seedMismatchError c)) ∧
    (sampleOp st g count (some s)).2 = st ∧
    (∀ count2 seed2,
      (sampleOp ((sampleOp st g count (some s)).2) g count2 seed2).1 =
        sample g count2 seed2) := by
  refine ⟨?_, rfl, fun _ _ => rfl⟩
  have hex : ∃ c, s.names.find? (fun n => !(schemaNames g).contains n) = some c := by
    obtain ⟨c, hc1, hc2⟩ := hbad
    cases hfind : s.names.find? (fun n => !(schemaNames g).contains n) with
    | some c0 => exact ⟨c0, rfl⟩
    | none =>
      rw [List.find?_eq_none] at hfind
      have := hfind c hc1
      simp [hc2] at this
  obtain ⟨c0, hfind⟩ := hex
  have hprop := List.find?_some hfind
  have hmem := List.mem_of_find?_eq_some hfind
  simp at hprop
  refine ⟨c0, hmem, hprop, ?_⟩
  simp only [sample]
  rw [hfind]

/-- C6 witness: a seed naming a nonexistent column against the traffic
generator. -/
theorem sample_seed_mismatch_witness :
    (∃ c ∈ (SeedSpec.mk [("NoSuchColumn", ["x"])]).names,
      c ∉ schemaNames gTraffic) ∧
    (∃ c ∈ (SeedSpec.mk [("NoSuchColumn", ["x"])]).names,
      c ∉ schemaNames gTraffic ∧
      sample gTraffic 3 (some (SeedSpec.mk [("NoSuchColumn", ["x"])])) =
        .error (.seedMismatchError c)) ∧
    (sampleOp stX gTraffic 3 (some (SeedSpec.mk [("NoSuchColumn", ["x"])]))).2 =
      stX ∧
    (∀ count2 seed2,
      (sampleOp
        ((sampleOp stX gTraffic 3
          (some (SeedSpec.mk [("NoSuchColumn", ["x"])]))).2)
        gTraffic count2 seed2).1 = sample gTraffic count2 seed2) :=
  ⟨by decide,
    sample_seed_mismatch gTraffic (SeedSpec.mk [("NoSuchColumn", ["x"])]) 3 stX
      (by decide)⟩

/-- C3 (amended): for every table with at least one row, at least one
usable column, and no unrecognized columns, train terminates with a
Generator whose training stopped at the first step where a stopping
criterion (convergence, time budget, or epsilon threshold) fires, and when
a maximal training time is configured the training steps stay within it. -/
theorem train_terminates (fm : FitModel) (st : ServiceState) (t : Table)
    (cfg : TrainConfig)
    (h1 : (configuredTable cfg t).numRows ≠ 0)
    (h2 : (usableColumns (configuredTable cfg t)).length ≠ 0)
    (h3 : ∀ c ∈ (configuredTable cfg t).columns, (classify c.rawType).isSome) :
    ∃ g w, (train fm st t cfg).1 = .ok (g, w) ∧
      g.epsilonSpent = (g.trainedSteps : Rat) * fm.epsPerStep ∧
      (∃ r, stopCheck fm cfg g.trainedSteps
        ((g.trainedSteps : Rat) * fm.epsPerStep) = some r) ∧
      (∀ m, m < g.trainedSteps →
        stopCheck fm cfg m ((m : Rat) * fm.epsPerStep) = none) ∧
      (∀ tmax, cfg.maxTrainingTime = some tmax → g.trainedSteps ≤ tmax) := by
  have hcond : ¬((configuredTable cfg t).numRows = 0 ∨
      (usableColumns (configuredTable cfg t)).length = 0) := by
    intro h
    rcases h with h | h
    exacts [h1 h, h2 h]
  obtain ⟨schema, hp⟩ := profileColumns_ok_of_all_recognized _ h3
  have hsome := trainLoop_isSome fm cfg (fm.convergesAt + 1) 0 0
    (by omega) (by omega)
  cases hl : trainLoop fm cfg (fm.convergesAt + 1) 0 0 with
  | none => rw [hl] at hsome; simp at hsome
  | some res =>
    obtain ⟨steps, eps, reason⟩ := res
    have hl0 : trainLoop fm cfg (fm.convergesAt + 1) 0
        (((0 : Nat) : Rat) * fm.epsPerStep) = some (steps, eps, reason) := by
      simpa using hl
    obtain ⟨-, heps, hstop, hmin⟩ :=
      trainLoop_spec fm cfg (fm.convergesAt + 1) 0 steps eps reason hl0
    have hres : train fm st t cfg =
        (Except.ok
            (trainedGenerator fm st (configuredTable cfg t) cfg schema steps eps,
              trainWarnings reason),
          ⟨st.generators ++
              [trainedGenerator fm st (configuredTable cfg t) cfg schema steps eps],
            st.nextId + 1⟩) := by
      simp only [train]
      rw [if_neg hcond, hp, hl]
    refine ⟨_, _, by rw [hres], heps, ⟨reason, hstop⟩, ?_, ?_⟩
    · exact fun m hm => hmin m (Nat.zero_le m) hm
    · intro tmax htmax
      by_contra hgt
      push_neg at hgt
      exact stopCheck_at_tmax fm cfg tmax ((tmax : Rat) * fm.epsPerStep) htmax
        (hmin tmax (Nat.zero_le tmax) hgt)

/-- C3 witness: a one-column numeric table with two rows trains within the
three-unit time budget. -/
theorem train_terminates_witness :
    ((configuredTable cfgX tGood).numRows ≠ 0 ∧
      (usableColumns (configuredTable cfgX tGood)).length ≠ 0 ∧
      ∀ c ∈ (configuredTable cfgX tGood).columns, (classify c.rawType).isSome) ∧
    ∃ g w, (train fmX stX tGood cfgX).1 = .ok (g, w) ∧
      g.epsilonSpent = (g.trainedSteps : Rat) * fmX.epsPerStep ∧
      (∃ r, stopCheck fmX cfgX g.trainedSteps
        ((g.trainedSteps : Rat) * fmX.epsPerStep) = some r) ∧
      (∀ m, m < g.trainedSteps →
        stopCheck fmX cfgX m ((m : Rat) * fmX.epsPerStep) = none) ∧
      (∀ tmax, cfgX.maxTrainingTime = some tmax → g.trainedSteps ≤ tmax) :=
  ⟨⟨by decide, by decide, by decide⟩,
    train_terminates fmX stX tGood cfgX (by decide) (by decide) (by decide)⟩

/-- C3 counterexample: a table with one row and a recognized usable column
on which train nevertheless returns a SchemaError instead of a Generator,
because a second column is unrecognized. -/
theorem train_unrecognized_column_counterexample :
    tMixed.numRows = 1 ∧
      (usableColumns (configuredTable cfgX tMixed)).length = 1 ∧
      (train fmX stX tMixed cfgX).1 = .error (.schemaError "odd") ∧
      ∀ g w, (train fmX stX tMixed cfgX).1 ≠ .ok (g, w) := by
  have hres : (train fmX stX tMixed cfgX).1 = .error (.schemaError "odd") := by
    rfl
  refine ⟨rfl, rfl, hres, ?_⟩
  intro g w hok
  rw [hres] at hok
  exact Except.noConfusion hok

/-- C4: when the epsilon threshold of the privacy budget is the first
stopping criterion to fire, training does not fail: it returns the
best-effort Generator together with the PrivacyBudgetExceeded warning, and
that generator indeed stopped before convergence. -/
theorem train_privacy_warning (fm : FitModel) (st : ServiceState) (t : Table)
    (cfg : TrainConfig)
    (h1 : (configuredTable cfg t).numRows ≠ 0)
    (h2 : (usableColumns (configuredTable cfg t)).length ≠ 0)
    (h3 : ∀ c ∈ (configuredTable cfg t).columns, (classify c.rawType).isSome)
    (h4 : ∃ n, (∀ m, m < n → stopCheck fm cfg m ((m : Rat) * fm.epsPerStep) = none) ∧
      stopCheck fm cfg n ((n : Rat) * fm.epsPerStep) = some .epsilonReached) :
    ∃ g, (train fm st t cfg).1 = .ok (g, [Warning.privacyBudgetExceeded]) ∧
      g.trainedSteps < fm.convergesAt := by
  have hcond : ¬((configuredTable cfg t).numRows = 0 ∨
      (usableColumns (configuredTable cfg t)).length = 0) := by
    intro h
    rcases h with h | h
    exacts [h1 h, h2 h]
  obtain ⟨schema, hp⟩ := profileColumns_ok_of_all_recognized _ h3
  have hsome := trainLoop_isSome fm cfg (fm.convergesAt + 1) 0 0
    (by omega) (by omega)
  cases hl : trainLoop fm cfg (fm.convergesAt + 1) 0 0 with
  | none => rw [hl] at hsome; simp at hsome
  | some res =>
    obtain ⟨steps, eps, reason⟩ := res
    have hl0 : trainLoop fm cfg (fm.convergesAt + 1) 0
        (((0 : Nat) : Rat) * fm.epsPerStep) = some (steps, eps, reason) := by
      simpa using hl
    obtain ⟨-, heps, hstop, hmin⟩ :=
      trainLoop_spec fm cfg (fm.convergesAt + 1) 0 steps eps reason hl0
    obtain ⟨n, hminN, hstopN⟩ := h4
    have hsn : steps = n := by
      rcases Nat.lt_trichotomy steps n with h | h | h
      · have hnone := hminN steps h
        rw [hnone] at hstop
        exact Option.noConfusion hstop
      · exact h
      · have hnone := hmin n (Nat.zero_le n) h
        rw [hnone] at hstopN
        exact Option.noConfusion hstopN
    have hreason : reason = StopReason.epsilonReached := by
      rw [hsn] at hstop
      rw [hstop] at hstopN
      exact Option.some.inj hstopN
    have hlt : steps < fm.convergesAt := by
      rw [hsn]
      by_contra hge
      push_neg at hge
      rw [← hsn] at hge
      rw [stopCheck_of_converged fm cfg steps _ hge] at hstop
      rw [hreason] at hstop
      exact StopReason.noConfusion (Option.some.inj hstop)
    have hres : train fm st t cfg =
        (Except.ok
            (trainedGenerator fm st (configuredTable cfg t) cfg schema steps eps,
              trainWarnings reason),
          ⟨st.generators ++
              [trainedGenerator fm st (configuredTable cfg t) cfg schema steps eps],
            st.nextId + 1⟩) := by
      simp only [train]
      rw [if_neg hcond, hp, hl]
    have hw : trainWarnings reason = [Warning.privacyBudgetExceeded] := by
      rw [hreason]
      rfl
    refine ⟨trainedGenerator fm st (configuredTable cfg t) cfg schema steps eps,
      ?_, ?_⟩
    · rw [hres, hw]
    · exact hlt

/-- C4 witness: a privacy budget of epsilon 7 with 4 epsilon per step fires
at step 2, long before convergence at step 100 or the 50-unit time budget;
training still succeeds and carries the warning. -/
theorem train_privacy_warning_witness :
    ((configuredTable cfgEps tGood).numRows ≠ 0 ∧
      (usableColumns (configuredTable cfgEps tGood)).length ≠ 0 ∧
      (∀ c ∈ (configuredTable cfgEps tGood).columns, (classify c.rawType).isSome) ∧
      (∀ m, m < 2 → stopCheck fmEps cfgEps m ((m : Rat) * fmEps.epsPerStep) = none) ∧
      stopCheck fmEps cfgEps 2 (((2 : Nat) : Rat) * fmEps.epsPerStep) =
        some .epsilonReached) ∧
    ∃ g, (train fmEps stX tGood cfgEps).1 = .ok (g, [Warning.privacyBudgetExceeded]) ∧
      g.trainedSteps < fmEps.convergesAt :=
  ⟨⟨by decide, by decide, by decide,
    by intro m hm; interval_cases m <;> norm_num [stopCheck, fmEps, cfgEps],
    by norm_num [stopCheck, fmEps, cfgEps]⟩,
    train_privacy_warning fmEps stX tGood cfgEps (by decide) (by decide)
      (by decide)
      ⟨2, by intro m hm; interval_cases m <;> norm_num [stopCheck, fmEps, cfgEps],
        by norm_num [stopCheck, fmEps, cfgEps]⟩⟩

/-- C8: reporting is a pure read: it leaves the service state untouched,
its metrics depend on nothing in the state, and two generators agreeing on
their schema produce identical metrics on the same tables, so equal inputs
give equal metrics and nothing is mutated. -/
theorem report_pure (st : ServiceState) (g g2 : Generator) (orig : Table)
    (b : SyntheticBatch) (hschema : g.schema = g2.schema) :
    (reportOp st g orig b).2 = st ∧
    (reportOp st g orig b).1 = (reportOp st g2 orig b).1 ∧
    ∀ st2, (reportOp st g orig b).1 = (reportOp st2 g orig b).1 := by
  refine ⟨rfl, ?_, fun _ => rfl⟩
  simp only [reportOp, report, hschema]

/-- C8 witness: two generators sharing the traffic schema report identical
metrics, and the state is untouched. -/
theorem report_pure_witness :
    gTraffic.schema = gTraffic2.schema ∧
    (reportOp stX gTraffic origX bX).2 = stX ∧
    (reportOp stX gTraffic origX bX).1 = (reportOp stX gTraffic2 origX bX).1 ∧
    ∀ st2, (reportOp stX gTraffic origX bX).1 = (reportOp st2 gTraffic origX bX).1 :=
  ⟨rfl, report_pure stX gTraffic gTraffic2 origX bX rfl⟩

/-- C9: profiling never touches the state; it either assigns exactly one
recognized encoding type to every column in order, or fails with a
SchemaError naming an unrecognized column; and it fails exactly when some
column is unrecognized. -/
theorem profiler_assigns_each_column (st : ServiceState) (t : Table) :
    (profileOp st t).2 = st ∧
    ((∃ ps, profileColumns t.columns = .ok ps ∧
        List.Forall₂
          (fun c p => p.name = c.name ∧ classify c.rawType = some p.encoding)
          t.columns ps) ∨
      (∃ c ∈ t.columns, classify c.rawType = none ∧
        profileColumns t.columns = .error (.schemaError c.name))) ∧
    ((∃ e, profileColumns t.columns = .error e) ↔
      ∃ c ∈ t.columns, classify c.rawType = none) := by
  refine ⟨rfl, ?_, ?_⟩
  · cases hp : profileColumns t.columns with
    | ok ps => exact Or.inl ⟨ps, rfl, profileColumns_ok_forall2 _ ps hp⟩
    | error e =>
      obtain ⟨c, hc, he, hcl⟩ := profileColumns_error_mem _ e hp
      exact Or.inr ⟨c, hc, hcl, by rw [he]⟩
  · constructor
    · rintro ⟨e, he⟩
      obtain ⟨c, hc, -, hcl⟩ := profileColumns_error_mem _ e he
      exact ⟨c, hc, hcl⟩
    · rintro ⟨c, hc, hcl⟩
      cases hp : profileColumns t.columns with
      | error e => exact ⟨e, rfl⟩
      | ok ps =>
        have hall := profileColumns_ok_all_recognized _ ps hp c hc
        rw [hcl] at hall
        exact absurd hall (by simp)

/-- C10: generating with a seed and no explicit size yields exactly one row
per seed row. -/
theorem generate_seed_row_count (g : Generator) (s : SeedSpec)
    (hsub : ∀ n ∈ s.names, n ∈ schemaNames g) :
    ∃ b, generate g none (some s) = .ok b ∧ b.rows.length = s.numRows := by
  refine ⟨⟨(List.range s.numRows).map fun i => genRow g (seedRowAssign s i) i⟩,
    ?_, ?_⟩
  · simp only [generate]
    exact sample_seed_ok g s s.numRows hsub
  · simp

/-- C10 witness: the 100-row wellness seed of the headlines notebook yields
a 100-row batch with no size argument. -/
theorem generate_seed_row_count_witness :
    (∀ n ∈ seedWellness.names, n ∈ schemaNames gHeadlines) ∧
    (∃ b, generate gHeadlines none (some seedWellness) = .ok b ∧
      b.rows.length = seedWellness.numRows) ∧
    seedWellness.numRows = 100 :=
  ⟨by decide, generate_seed_row_count gHeadlines seedWellness (by decide), rfl⟩

end SynthGen
